import Mathlib

/-!
# Verification of `notebooks/shared.py` (covid-predictors)

A shallow embedding of the two functions of `src/notebooks/shared.py`
(`load_csv` and `translate_filter_columns`) together with proofs about
them.

## Data model

A pandas `DataFrame` is modelled as an ordered list of named columns,
each column an ordered list of values (`Table α`).  Column names are
strings; pandas does not require column labels to be unique, and the
model does not either.

`df.rename(columns=mapping)` is modelled by `rename`: every column whose
label is a key of the mapping gets the mapped label, all other columns
keep their label; values and column order are untouched (pandas `rename`
returns a new frame, it does not mutate).

`df[names]` (selection by a list of labels) is modelled by `select`:
if some requested label is not among the column labels, the call fails
with an error listing the missing labels (pandas raises `KeyError`
naming them); otherwise, for each requested label in order, all columns
carrying that label are returned (pandas returns every match when labels
are duplicated).

Python truthiness of the `optional_includes` argument
(`if optional_includes:`) is modelled by `truthy`: `None` and the empty
list are falsy, a non-empty list is truthy.
-/

/-- A tabular structure: an ordered list of named columns, each an
ordered list of values.  This is the shallow embedding of a pandas
`DataFrame` (values of a single type `α`; the claims under study never
inspect values, only move them around). -/
structure Table (α : Type) where
  cols : List (String × List α)
deriving DecidableEq, Repr

/-- The list of column labels of a table, in order. -/
def colNames {α : Type} (t : Table α) : List String :=
  t.cols.map Prod.fst

/-- The fixed Spanish-to-English column mapping of
`translate_filter_columns` (`shared.py` lines 12-55), entry for entry. -/
def column_mapping : List (String × String) :=
  [ ("FECHA_ACTUALIZACION", "update_date"),
    ("ID_REGISTRO", "case_id"),
    ("ORIGEN", "origin"),
    ("SECTOR", "sector"),
    ("ENTIDAD_UM", "medical_unit_state"),
    ("SEXO", "sex"),
    ("ENTIDAD_NAC", "birth_state"),
    ("ENTIDAD_RES", "residence_state"),
    ("MUNICIPIO_RES", "residence_municipality"),
    ("TIPO_PACIENTE", "patient_type"),
    ("FECHA_INGRESO", "admission_date"),
    ("FECHA_SINTOMAS", "symptoms_start_date"),
    ("FECHA_DEF", "death_date"),
    ("INTUBADO", "intubated"),
    ("NEUMONIA", "pneumonia"),
    ("EDAD", "age"),
    ("NACIONALIDAD", "nationality"),
    ("EMBARAZO", "pregnant"),
    ("HABLA_LENGUA_INDIG", "speaks_indigenous_language"),
    ("INDIGENA", "indigenous"),
    ("DIABETES", "diabetes"),
    ("EPOC", "copd"),
    ("ASMA", "asthma"),
    ("INMUSUPR", "immunosuppressed"),
    ("HIPERTENSION", "hypertension"),
    ("OTRA_COM", "other_comorbidity"),
    ("CARDIOVASCULAR", "cardiovascular_disease"),
    ("OBESIDAD", "obesity"),
    ("RENAL_CRONICA", "chronic_kidney_disease"),
    ("TABAQUISMO", "smoking"),
    ("OTRO_CASO", "contact_with_covid_case"),
    ("TOMA_MUESTRA_LAB", "lab_sample_taken"),
    ("RESULTADO_PCR", "pcr_result"),
    ("RESULTADO_PCR_COINFECCION", "pcr_coinfection_result"),
    ("TOMA_MUESTRA_ANTIGENO", "antigen_sample_taken"),
    ("RESULTADO_ANTIGENO", "antigen_result"),
    ("CLASIFICACION_FINAL_COVID", "covid_classification"),
    ("CLASIFICACION_FINAL_FLU", "flu_classification"),
    ("MIGRANTE", "migrant"),
    ("PAIS_NACIONALIDAD", "country_nationality"),
    ("PAIS_ORIGEN", "country_origin"),
    ("UCI", "icu") ]

/-- Dictionary lookup in an association list (the embedding of looking a
column name up in the Python `column_mapping` dict). -/
def lookupMap (m : List (String × String)) (n : String) : Option String :=
  match m with
  | [] => none
  | (k, v) :: rest => if k = n then some v else lookupMap rest n

/-- The new label of a column named `n` under mapping `m`: the mapped
value when `n` is a key, otherwise `n` unchanged.  This is what
`df.rename(columns=m)` does to each label. -/
def renameName (m : List (String × String)) (n : String) : String :=
  match lookupMap m n with
  | some v => v
  | none => n

/-- `df.rename(columns=m)`: relabel every column through `renameName`;
values and column order untouched, a new table is produced. -/
def rename {α : Type} (m : List (String × String)) (t : Table α) : Table α :=
  ⟨t.cols.map (fun c => (renameName m c.1, c.2))⟩

/-- The labels of `names` that are not labels of any column of `t`, in
the order of `names`.  These are the labels pandas' `KeyError` reports
when `df[names]` fails. -/
def missingColumns {α : Type} (names : List String) (t : Table α) : List String :=
  names.filter (fun n => decide (¬ n ∈ colNames t))

/-- `df[names]` with `names` a list: fails listing the missing labels if
any requested label is absent; otherwise returns, for each requested
label in order, every column of `t` carrying that label (pandas returns
all matches when column labels are duplicated). -/
def select {α : Type} (names : List String) (t : Table α) :
    Except (List String) (Table α) :=
  if missingColumns names t = [] then
    Except.ok ⟨names.flatMap (fun n => t.cols.filter (fun c => decide (c.1 = n)))⟩
  else
    Except.error (missingColumns names t)

/-- The fixed 16-name whitelist `filter_columns` of
`translate_filter_columns` (`shared.py` lines 59-64), in order. -/
def filter_columns_base : List String :=
  [ "sex", "pneumonia", "age", "pregnant", "diabetes",
    "copd", "asthma", "immunosuppressed", "hypertension", "other_comorbidity",
    "cardiovascular_disease", "obesity", "chronic_kidney_disease", "smoking",
    "contact_with_covid_case", "covid_classification" ]

/-- Python truthiness of the `optional_includes` argument: `None`
(modelled `none`) and the empty list are falsy. -/
def truthy (opt : Option (List String)) : Bool :=
  match opt with
  | none => false
  | some l => !l.isEmpty

/-- The retention list built by `translate_filter_columns`: the fixed
whitelist, extended by the caller's extras exactly when
`optional_includes` is truthy (`if optional_includes: filter_columns +=
optional_includes`). -/
def retention_list (opt : Option (List String)) : List String :=
  if truthy opt then filter_columns_base ++ opt.getD [] else filter_columns_base

/-- `translate_filter_columns(df, optional_includes=None)`
(`shared.py` lines 8-69): rename by the fixed mapping, build the
retention list, select it, and return the pair (selected table,
retention list); a failing selection propagates. -/
def translate_filter_columns {α : Type} (df : Table α)
    (optional_includes : Option (List String) := none) :
    Except (List String) (Table α × List String) :=
  let renamed := rename column_mapping df
  let filter_columns := retention_list optional_includes
  match select filter_columns renamed with
  | Except.error e => Except.error e
  | Except.ok t => Except.ok (t, filter_columns)

/-- Errors of the loader (`load_csv`): the file may be absent at the
resolved path, or its content may not parse as delimited text. -/
inductive LoadError where
  | fileNotFound
  | parseError
deriving DecidableEq, Repr

/-- Modelled from the spec: the delimited-text parsing done by pandas
`read_csv` (library code, not part of this repository).  Per spec
section 4.1, the first line is the header row naming the columns and the
remaining lines are data rows; a file that is not well-formed delimited
text fails with a parse error.  Type inference on values is out of
scope: values stay strings. -/
def read_csv (raw : List (List String)) : Except LoadError (Table String) :=
  match raw with
  | [] => Except.error LoadError.parseError
  | header :: rows =>
    if rows.all (fun r => r.length = header.length) then
      Except.ok ⟨header.enum.map (fun p => (p.2, rows.map (fun r => r.getD p.1 "")))⟩
    else
      Except.error LoadError.parseError

/-- `load_csv(dataset="COVID19MEXICO.csv")` (`shared.py` lines 4-5):
resolve `./data/{dataset}` against the file system (modelled as an
association list from path to raw file content) and parse the file
found there; if no file exists at the resolved path, fail with
`fileNotFound` and return no table. -/
def load_csv (fs : List (String × List (List String)))
    (dataset : String := "COVID19MEXICO.csv") : Except LoadError (Table String) :=
  match fs.lookup ("./data/" ++ dataset) with
  | none => Except.error LoadError.fileNotFound
  | some raw => read_csv raw

/-!
## Concrete tables used to instantiate and to refute claims
-/

/-- A table carrying exactly the 16 source columns whose renamed labels
form the whitelist, with two rows of values. -/
def tableAll16 : Table Nat :=
  ⟨[ ("SEXO", [1, 2]), ("NEUMONIA", [2, 1]), ("EDAD", [30, 41]), ("EMBARAZO", [97, 97]),
     ("DIABETES", [1, 2]), ("EPOC", [2, 2]), ("ASMA", [2, 2]), ("INMUSUPR", [2, 2]),
     ("HIPERTENSION", [1, 2]), ("OTRA_COM", [2, 2]), ("CARDIOVASCULAR", [2, 2]),
     ("OBESIDAD", [2, 1]), ("RENAL_CRONICA", [2, 2]), ("TABAQUISMO", [1, 2]),
     ("OTRO_CASO", [2, 2]), ("CLASIFICACION_FINAL_COVID", [3, 7]) ]⟩

/-- `tableAll16` with one extra column already labelled `sex`: after
renaming, the label `sex` occurs twice. -/
def tableDupSex : Table Nat :=
  ⟨("sex", [0, 0]) :: tableAll16.cols⟩

/-- `tableAll16` with the source column `UCI` appended. -/
def tableAll16Uci : Table Nat :=
  ⟨tableAll16.cols ++ [("UCI", [2, 2])]⟩

/-- `tableAll16Uci` with one extra column already labelled `icu`: after
renaming, the label `icu` occurs twice. -/
def tableDupIcu : Table Nat :=
  ⟨("icu", [0, 0]) :: tableAll16Uci.cols⟩

/-- `tableAll16` with the source column `CLASIFICACION_FINAL_COVID`
replaced by a column already carrying the target label
`covid_classification`. -/
def tableEnglishCovid : Table Nat :=
  ⟨[ ("SEXO", [1, 2]), ("NEUMONIA", [2, 1]), ("EDAD", [30, 41]), ("EMBARAZO", [97, 97]),
     ("DIABETES", [1, 2]), ("EPOC", [2, 2]), ("ASMA", [2, 2]), ("INMUSUPR", [2, 2]),
     ("HIPERTENSION", [1, 2]), ("OTRA_COM", [2, 2]), ("CARDIOVASCULAR", [2, 2]),
     ("OBESIDAD", [2, 1]), ("RENAL_CRONICA", [2, 2]), ("TABAQUISMO", [1, 2]),
     ("OTRO_CASO", [2, 2]), ("covid_classification", [3, 7]) ]⟩

/-- A one-column table missing nearly all whitelist columns. -/
def tableOnlySex : Table Nat :=
  ⟨[("SEXO", [1])]⟩

/-- The 16 source-language labels that the fixed mapping renames to the
16 whitelist labels, in whitelist order. -/
def whitelistSources : List String :=
  [ "SEXO", "NEUMONIA", "EDAD", "EMBARAZO", "DIABETES", "EPOC", "ASMA", "INMUSUPR",
    "HIPERTENSION", "OTRA_COM", "CARDIOVASCULAR", "OBESIDAD", "RENAL_CRONICA",
    "TABAQUISMO", "OTRO_CASO", "CLASIFICACION_FINAL_COVID" ]

/-- The table `translate_filter_columns` produces from `tableAll16`:
the same columns with renamed labels, rows untouched. -/
def tableAll16Selected : Table Nat :=
  ⟨[ ("sex", [1, 2]), ("pneumonia", [2, 1]), ("age", [30, 41]), ("pregnant", [97, 97]),
     ("diabetes", [1, 2]), ("copd", [2, 2]), ("asthma", [2, 2]), ("immunosuppressed", [2, 2]),
     ("hypertension", [1, 2]), ("other_comorbidity", [2, 2]), ("cardiovascular_disease", [2, 2]),
     ("obesity", [2, 1]), ("chronic_kidney_disease", [2, 2]), ("smoking", [1, 2]),
     ("contact_with_covid_case", [2, 2]), ("covid_classification", [3, 7]) ]⟩

/-!
## The per-call heap model for aliasing claims

`filter_columns += optional_includes` mutates the *local* list
`filter_columns`, built fresh by a list literal on every call; the
caller's `optional_includes` list is only read.  To settle aliasing and
mutation claims, `translate_filter_columnsH` re-traces the body of
`translate_filter_columns` over an explicit heap of string lists:
addresses are indices, a list literal allocates a fresh cell at the end
of the heap, `+=` updates the allocated cell in place, and the function
returns the *address* of the retention list, exactly as Python returns a
reference.  (`df.rename(columns=...)` and `df[...]` return new frames
without touching their input, so the table is passed by value.)
-/

/-- A heap of Python list objects holding strings; an address is an
index into the heap. -/
abbrev Heap : Type := List (List String)

/-- Read the list stored at address `a` (out-of-range reads, which never
happen for valid addresses, default to `[]`). -/
def hGet (σ : Heap) (a : Nat) : List String := σ.getD a []

/-- Heap-level re-trace of `translate_filter_columns`: `opt` is `none`
for an omitted argument or `some a` with `a` the address of the caller's
`optional_includes` list.  Returns the final heap, the address of the
retention list backing both the selection and the second component of
the returned pair, and the selection result. -/
def translate_filter_columnsH {α : Type} (σ : Heap) (df : Table α)
    (opt : Option Nat) : Heap × Nat × Except (List String) (Table α) :=
  let renamed := rename column_mapping df
  let σ₁ : Heap := σ ++ [filter_columns_base]
  let fa : Nat := σ.length
  let σ₂ : Heap :=
    match opt with
    | none => σ₁
    | some a => if (hGet σ₁ a).isEmpty then σ₁ else σ₁.set fa (hGet σ₁ fa ++ hGet σ₁ a)
  (σ₂, fa, select (hGet σ₂ fa) renamed)

/-!
## Helper lemmas
-/

theorem mem_missingColumns {α : Type} {names : List String} {t : Table α} {n : String} :
    n ∈ missingColumns names t ↔ n ∈ names ∧ n ∉ colNames t := by
  simp [missingColumns, List.mem_filter]

theorem missingColumns_eq_nil_iff {α : Type} {names : List String} {t : Table α} :
    missingColumns names t = [] ↔ ∀ n ∈ names, n ∈ colNames t := by
  simp [missingColumns, List.filter_eq_nil_iff]

theorem select_ok_of_subset {α : Type} {names : List String} {t : Table α}
    (h : ∀ n ∈ names, n ∈ colNames t) :
    select names t =
      Except.ok ⟨names.flatMap (fun n => t.cols.filter (fun c => decide (c.1 = n)))⟩ := by
  simp [select, missingColumns_eq_nil_iff.mpr h]

theorem select_error_eq {α : Type} {names : List String} {t : Table α} {e : List String}
    (h : select names t = Except.error e) : e = missingColumns names t := by
  by_cases hm : missingColumns names t = [] <;> simp [select, hm] at h
  exact h.symm

theorem select_error_iff {α : Type} {names : List String} {t : Table α} :
    (∃ e, select names t = Except.error e) ↔ ∃ n ∈ names, n ∉ colNames t := by
  constructor
  · rintro ⟨e, he⟩
    by_cases hm : missingColumns names t = [] <;> simp [select, hm] at he
    rcases List.exists_mem_of_ne_nil _ hm with ⟨n, hn⟩
    exact ⟨n, mem_missingColumns.mp hn⟩
  · rintro ⟨n, hn, hmem⟩
    have hne : missingColumns names t ≠ [] := by
      intro hnil
      exact hmem (missingColumns_eq_nil_iff.mp hnil n hn)
    exact ⟨missingColumns names t, by simp [select, hne]⟩

theorem select_mem_of_ok {α : Type} {names : List String} {t : Table α} {u : Table α}
    (h : select names t = Except.ok u) :
    ∀ c ∈ u.cols, c ∈ t.cols ∧ c.1 ∈ names := by
  by_cases hm : missingColumns names t = [] <;> simp [select, hm] at h
  intro c hc
  rw [← h] at hc
  simp only [List.mem_flatMap, List.mem_filter] at hc
  rcases hc with ⟨n, hn, hct, hcn⟩
  exact ⟨hct, by simpa [of_decide_eq_true hcn] using hn⟩

theorem map_fst_filter_eq {α : Type} (l : List (String × List α)) (n : String) :
    (l.filter (fun c => decide (c.1 = n))).map Prod.fst
      = (l.map Prod.fst).filter (fun m => decide (m = n)) := by
  induction l with
  | nil => rfl
  | cons c l ih => by_cases h : c.1 = n <;> simp [List.filter_cons, h, ih]

theorem filter_eq_singleton_of_nodup {l : List String} {n : String}
    (hnd : l.Nodup) (hm : n ∈ l) : l.filter (fun m => decide (m = n)) = [n] := by
  induction l with
  | nil => cases hm
  | cons a l ih =>
    rcases List.nodup_cons.mp hnd with ⟨ha, hl⟩
    by_cases h : a = n
    · subst h
      have : l.filter (fun m => decide (m = a)) = [] := by
        rw [List.filter_eq_nil_iff]
        intro m hml
        simp only [decide_eq_true_eq]
        intro hma
        exact ha (hma ▸ hml)
      simp [List.filter_cons, this]
    · have hnl : n ∈ l := by
        cases hm with
        | head => exact absurd rfl h
        | tail _ h' => exact h'
      simp [List.filter_cons, h, ih hl hnl]

theorem colNames_select_of_nodup {α : Type} {names : List String} {t : Table α} {u : Table α}
    (hnd : (colNames t).Nodup) (hsub : ∀ n ∈ names, n ∈ colNames t)
    (h : select names t = Except.ok u) : colNames u = names := by
  rw [select_ok_of_subset hsub] at h
  cases h
  show (names.flatMap (fun n => t.cols.filter (fun c => decide (c.1 = n)))).map Prod.fst = names
  rw [List.map_flatMap]
  have : ∀ n ∈ names,
      (t.cols.filter (fun c => decide (c.1 = n))).map Prod.fst = [n] := by
    intro n hn
    rw [map_fst_filter_eq]
    exact filter_eq_singleton_of_nodup hnd (hsub n hn)
  calc names.flatMap (fun n => (t.cols.filter (fun c => decide (c.1 = n))).map Prod.fst)
      = names.flatMap (fun n => [n]) := List.flatMap_congr this
    _ = names := by induction names with
        | nil => rfl
        | cons a l ih => simp_all

theorem lookupMap_mem {m : List (String × String)} {n v : String}
    (h : lookupMap m n = some v) : (n, v) ∈ m := by
  induction m with
  | nil => simp [lookupMap] at h
  | cons p rest ih =>
    obtain ⟨k, w⟩ := p
    by_cases hk : k = n
    · subst hk
      simp only [lookupMap, if_pos rfl] at h
      cases h
      exact List.mem_cons_self _ _
    · simp only [lookupMap, if_neg hk] at h
      exact List.mem_cons_of_mem _ (ih h)

theorem lookupMap_eq_some_of_mem {m : List (String × String)} {k v : String}
    (hnd : (m.map Prod.fst).Nodup) (h : (k, v) ∈ m) : lookupMap m k = some v := by
  induction m with
  | nil => cases h
  | cons p rest ih =>
    obtain ⟨k', w⟩ := p
    simp only [List.map_cons, List.nodup_cons] at hnd
    obtain ⟨hp, hrest⟩ := hnd
    cases h with
    | head => simp [lookupMap]
    | tail _ h' =>
      have hk1 : k ∈ List.map Prod.fst rest := List.mem_map_of_mem Prod.fst h'
      have hk : k' ≠ k := by
        intro he
        rw [he] at hp
        exact hp hk1
      simp only [lookupMap, if_neg hk]
      exact ih hrest h'

theorem lookupMap_eq_none {m : List (String × String)} {n : String}
    (h : n ∉ m.map Prod.fst) : lookupMap m n = none := by
  induction m with
  | nil => rfl
  | cons p rest ih =>
    simp only [List.map_cons, List.mem_cons] at h
    push_neg at h
    simp only [lookupMap]
    rw [if_neg (Ne.symm h.1)]
    exact ih h.2

theorem renameName_not_key {m : List (String × String)} {n : String}
    (h : n ∉ m.map Prod.fst) : renameName m n = n := by
  simp [renameName, lookupMap_eq_none h]

theorem cm_keys_nodup : (column_mapping.map Prod.fst).Nodup := by decide

theorem renameName_key {k v : String} (h : (k, v) ∈ column_mapping) :
    renameName column_mapping k = v := by
  simp [renameName, lookupMap_eq_some_of_mem cm_keys_nodup h]

theorem colNames_rename {α : Type} (m : List (String × String)) (t : Table α) :
    colNames (rename m t) = (colNames t).map (renameName m) := by
  simp [colNames, rename, List.map_map, Function.comp]

theorem mem_colNames_rename {α : Type} {m : List (String × String)} {t : Table α}
    {s : String} (h : s ∈ colNames t) : renameName m s ∈ colNames (rename m t) := by
  rw [colNames_rename]
  exact List.mem_map_of_mem _ h

theorem cm_covid_value_unique :
    ∀ p ∈ column_mapping, p.2 = "covid_classification" → p.1 = "CLASIFICACION_FINAL_COVID" := by
  decide

theorem renameName_eq_covid {s : String}
    (h : renameName column_mapping s = "covid_classification") :
    s = "CLASIFICACION_FINAL_COVID" ∨ s = "covid_classification" := by
  unfold renameName at h
  cases hl : lookupMap column_mapping s with
  | none => right; rw [hl] at h; exact h
  | some v =>
    left
    rw [hl] at h
    exact cm_covid_value_unique (s, v) (lookupMap_mem hl) (by simpa using h)

theorem cm_values_not_keys :
    ∀ p ∈ column_mapping, lookupMap column_mapping p.2 = none := by decide

theorem renameName_cm_idem (n : String) :
    renameName column_mapping (renameName column_mapping n) = renameName column_mapping n := by
  cases hl : lookupMap column_mapping n with
  | none => simp [renameName, hl]
  | some v =>
    have hv : lookupMap column_mapping v = none :=
      cm_values_not_keys (n, v) (lookupMap_mem hl)
    simp [renameName, hl, hv]

theorem retention_list_some (extras : List String) :
    retention_list (some extras) = filter_columns_base ++ extras := by
  cases extras with
  | nil => simp [retention_list, truthy]
  | cons a l => simp [retention_list, truthy]

theorem mem_retention_of_mem_base {n : String} (opt : Option (List String))
    (h : n ∈ filter_columns_base) : n ∈ retention_list opt := by
  unfold retention_list
  split
  · exact List.mem_append_left _ h
  · exact h

theorem translate_error_iff_select {α : Type} {df : Table α} {opt : Option (List String)}
    {e : List String} :
    translate_filter_columns df opt = Except.error e ↔
      select (retention_list opt) (rename column_mapping df) = Except.error e := by
  simp only [translate_filter_columns]
  cases hsel : select (retention_list opt) (rename column_mapping df) <;>
    simp [hsel]

theorem translate_ok_select {α : Type} {df : Table α} {opt : Option (List String)}
    {t : Table α} {r : List String}
    (h : translate_filter_columns df opt = Except.ok (t, r)) :
    select (retention_list opt) (rename column_mapping df) = Except.ok t ∧
      r = retention_list opt := by
  simp only [translate_filter_columns] at h
  cases hsel : select (retention_list opt) (rename column_mapping df) <;>
    rw [hsel] at h <;> cases h
  exact ⟨rfl, rfl⟩

theorem translate_ok_of_nodup {α : Type} {df : Table α} {extras : List String}
    (hnd : (colNames (rename column_mapping df)).Nodup)
    (hsub : ∀ n ∈ filter_columns_base ++ extras, n ∈ colNames (rename column_mapping df)) :
    ∃ t, translate_filter_columns df (some extras) =
        Except.ok (t, filter_columns_base ++ extras) ∧
      colNames t = filter_columns_base ++ extras := by
  have hre := retention_list_some extras
  have hok := select_ok_of_subset hsub
  refine ⟨⟨(filter_columns_base ++ extras).flatMap
      (fun n => (rename column_mapping df).cols.filter (fun c => decide (c.1 = n)))⟩,
    ?_, colNames_select_of_nodup hnd hsub hok⟩
  show (match select (retention_list (some extras)) (rename column_mapping df) with
    | Except.error e => Except.error e
    | Except.ok t => Except.ok (t, retention_list (some extras))) =
      Except.ok (_, filter_columns_base ++ extras)
  rw [hre, hok]

theorem whitelistSources_map_eq :
    whitelistSources.map (renameName column_mapping) = filter_columns_base := by decide

/-!
## The claims

Claims C1-C10 about `shared.py`, each settled by one theorem below
(with a witness instantiation when the theorem carries hypotheses, and
a concrete counterexample when the claim as stated fails on the code).
-/

/-- Claim C1 (counterexample): the claim as stated is false.  The input
table `tableDupSex` carries, besides all 16 whitelist source columns, a
column already labelled `sex`; its renamed columns include every name of
the retention list (extras `[]`), yet the selected table's columns are
*not* exactly the retention list: pandas selection returns both columns
labelled `sex`, giving 17 columns. -/
theorem C1_counterexample_duplicate_sex_label :
    (∀ n ∈ filter_columns_base ++ ([] : List String),
        n ∈ colNames (rename column_mapping tableDupSex)) ∧
    ¬ ((translate_filter_columns tableDupSex (some [])).toOption.map
        (fun p => colNames p.1) = some (filter_columns_base ++ ([] : List String))) := by
  decide

/-- Claim C1 (amended): for every input table whose renamed column
names are pairwise distinct and include every name of the retention
list, and every list of extra column names, `translate_filter_columns`
returns a pair whose second component is the fixed 16-name whitelist
with the extras appended in order (duplicates not removed), and whose
first component is a table whose columns are exactly the names of that
retention list, in that order. -/
theorem C1_translate_filter_columns_columns_exact {α : Type} (df : Table α)
    (extras : List String)
    (hnd : (colNames (rename column_mapping df)).Nodup)
    (hsub : ∀ n ∈ filter_columns_base ++ extras, n ∈ colNames (rename column_mapping df)) :
    ∃ t, translate_filter_columns df (some extras) =
        Except.ok (t, filter_columns_base ++ extras) ∧
      colNames t = filter_columns_base ++ extras :=
  translate_ok_of_nodup hnd hsub

/-- Claim C1 witness: the amended theorem at the concrete table
`tableAll16` with the (duplicate) extra name `sex`. -/
theorem C1_witness :
    ∃ t, translate_filter_columns tableAll16 (some ["sex"]) =
        Except.ok (t, filter_columns_base ++ ["sex"]) ∧
      colNames t = filter_columns_base ++ ["sex"] :=
  C1_translate_filter_columns_columns_exact tableAll16 ["sex"] (by decide) (by decide)

/-- Claim C2 (counterexample): the claim as stated is false, because
the fixed mapping does not have 41 entries (it has 42; the spec
under-counts by one). -/
theorem C2_counterexample_not_41_entries :
    ¬ ((column_mapping.map Prod.fst).Nodup ∧ (column_mapping.map Prod.snd).Nodup ∧
        column_mapping.length = 41) := by decide

/-- Claim C2 (amended): the fixed column mapping is one-to-one — its
source names are pairwise distinct and no two source names map to the
same target name — and covers exactly 42 known source column names. -/
theorem C2_column_mapping_injective_42 :
    (column_mapping.map Prod.fst).Nodup ∧ (column_mapping.map Prod.snd).Nodup ∧
      column_mapping.length = 42 := by decide

/-- Claim C3 (counterexample): the claim as stated is false.  The table
`tableEnglishCovid` has no source column `CLASIFICACION_FINAL_COVID`,
yet `translate_filter_columns` succeeds on it, because it already
carries a column labelled `covid_classification`. -/
theorem C3_counterexample_english_covid_present :
    "CLASIFICACION_FINAL_COVID" ∉ colNames tableEnglishCovid ∧
    (translate_filter_columns tableEnglishCovid none).toOption.isSome = true := by decide

/-- Claim C3 (amended): `translate_filter_columns` fails exactly when
some name of the retention list is not a column of the renamed table,
and the error is precisely the list of the missing names; in
particular, if neither the source column `CLASIFICACION_FINAL_COVID`
nor a column already labelled `covid_classification` is present in the
input, the call fails with an error naming `covid_classification`. -/
theorem C3_missing_column_error_iff {α : Type} (df : Table α) (opt : Option (List String)) :
    ((∃ e, translate_filter_columns df opt = Except.error e) ↔
      ∃ n ∈ retention_list opt, n ∉ colNames (rename column_mapping df)) ∧
    (∀ e, translate_filter_columns df opt = Except.error e →
      e = missingColumns (retention_list opt) (rename column_mapping df)) ∧
    ("CLASIFICACION_FINAL_COVID" ∉ colNames df → "covid_classification" ∉ colNames df →
      ∃ e, translate_filter_columns df opt = Except.error e ∧ "covid_classification" ∈ e) := by
  have hiff : (∃ e, translate_filter_columns df opt = Except.error e) ↔
      ∃ n ∈ retention_list opt, n ∉ colNames (rename column_mapping df) := by
    rw [← select_error_iff]
    exact exists_congr (fun e => translate_error_iff_select)
  refine ⟨hiff, fun e he => select_error_eq (translate_error_iff_select.mp he), ?_⟩
  intro h1 h2
  have hmemret : "covid_classification" ∈ retention_list opt :=
    mem_retention_of_mem_base opt (by decide)
  have hnot : "covid_classification" ∉ colNames (rename column_mapping df) := by
    intro hmem
    rw [colNames_rename] at hmem
    obtain ⟨s, hs, hsn⟩ := List.mem_map.mp hmem
    cases renameName_eq_covid hsn with
    | inl h => exact h1 (h ▸ hs)
    | inr h => exact h2 (h ▸ hs)
  obtain ⟨e, he⟩ := hiff.mpr ⟨_, hmemret, hnot⟩
  refine ⟨e, he, ?_⟩
  rw [select_error_eq (translate_error_iff_select.mp he)]
  exact mem_missingColumns.mpr ⟨hmemret, hnot⟩

/-- Claim C3 witness: the amended theorem at the concrete one-column
table `tableOnlySex`, which lacks both spellings of the classification
column: the call fails and the error names `covid_classification`. -/
theorem C3_witness :
    ∃ e, translate_filter_columns tableOnlySex none = Except.error e ∧
      "covid_classification" ∈ e :=
  (C3_missing_column_error_iff tableOnlySex none).2.2 (by decide) (by decide)

/-- Claim C4: on every successful call, each column of the output table
is a (renamed) column of the input with its value list — hence every
row, in order — carried over unchanged; if every input column has `n`
rows then every output column has `n` rows.  Selection never drops or
reorders rows. -/
theorem C4_rows_preserved {α : Type} (df : Table α) (opt : Option (List String))
    (t : Table α) (r : List String)
    (h : translate_filter_columns df opt = Except.ok (t, r)) :
    (∀ c ∈ t.cols, ∃ d ∈ df.cols, c.1 = renameName column_mapping d.1 ∧ c.2 = d.2) ∧
    (∀ n : Nat, (∀ d ∈ df.cols, d.2.length = n) → ∀ c ∈ t.cols, c.2.length = n) := by
  obtain ⟨hs, -⟩ := translate_ok_select h
  have hmm := select_mem_of_ok hs
  have h1 : ∀ c ∈ t.cols, ∃ d ∈ df.cols, c.1 = renameName column_mapping d.1 ∧ c.2 = d.2 := by
    intro c hc
    obtain ⟨hcr, -⟩ := hmm c hc
    simp only [rename, List.mem_map] at hcr
    obtain ⟨d, hd, hde⟩ := hcr
    exact ⟨d, hd, by rw [← hde], by rw [← hde]⟩
  refine ⟨h1, ?_⟩
  intro n hn c hc
  obtain ⟨d, hd, -, h2⟩ := h1 c hc
  rw [h2]
  exact hn d hd

/-- Claim C4 witness: the theorem at the concrete table `tableAll16`,
whose successful selection `tableAll16Selected` carries every value
list over unchanged and keeps both rows of every column. -/
theorem C4_witness :
    (∀ c ∈ tableAll16Selected.cols, ∃ d ∈ tableAll16.cols,
        c.1 = renameName column_mapping d.1 ∧ c.2 = d.2) ∧
    (∀ c ∈ tableAll16Selected.cols, c.2.length = 2) := by
  have h := C4_rows_preserved tableAll16 none tableAll16Selected filter_columns_base (by rfl)
  exact ⟨h.1, h.2 2 (by decide)⟩

/-- Claim C5: the rename step relabels every column through
`renameName`, which maps each key of the fixed mapping to its mapped
value and leaves every non-key name unchanged; values and column order
are untouched. -/
theorem C5_rename_step {α : Type} (t : Table α) :
    (rename column_mapping t).cols
        = t.cols.map (fun c => (renameName column_mapping c.1, c.2)) ∧
    (∀ k v, (k, v) ∈ column_mapping → renameName column_mapping k = v) ∧
    (∀ n, n ∉ column_mapping.map Prod.fst → renameName column_mapping n = n) :=
  ⟨rfl, fun _ _ h => renameName_key h, fun _ h => renameName_not_key h⟩

/-- Claim C5 witness: the theorem instantiated at the mapping entry
`UCI ↦ icu` and at the non-key name `foo`. -/
theorem C5_witness :
    renameName column_mapping "UCI" = "icu" ∧ renameName column_mapping "foo" = "foo" :=
  ⟨(C5_rename_step (⟨[]⟩ : Table Nat)).2.1 "UCI" "icu" (by decide),
   (C5_rename_step (⟨[]⟩ : Table Nat)).2.2 "foo" (by decide)⟩

/-- Claim C6: renaming by the fixed mapping is idempotent — no target
name of the mapping is itself a key, so a second rename alters no
column of an already-renamed table. -/
theorem C6_rename_idempotent {α : Type} (t : Table α) :
    rename column_mapping (rename column_mapping t) = rename column_mapping t := by
  unfold rename
  refine congrArg Table.mk ?_
  simp only [List.map_map]
  refine List.map_congr_left ?_
  intro c _
  simp [Function.comp, renameName_cm_idem]

/-- Claim C7: `load_csv` resolves its argument (default: the literal
`COVID19MEXICO.csv`) against the fixed relative directory `./data/`,
and when no file exists at the resolved path it fails with
`fileNotFound` and returns no table. -/
theorem C7_load_csv_file_not_found (fs : List (String × List (List String)))
    (dataset : String) (h : fs.lookup ("./data/" ++ dataset) = none) :
    load_csv fs dataset = Except.error LoadError.fileNotFound ∧
    load_csv fs = load_csv fs "COVID19MEXICO.csv" := by
  constructor
  · simp [load_csv, h]
  · rfl

/-- Claim C7 witness: the theorem at the empty file system and the
default dataset name. -/
theorem C7_witness :
    ([] : List (String × List (List String))).lookup ("./data/" ++ "COVID19MEXICO.csv")
        = none ∧
    load_csv [] "COVID19MEXICO.csv" = Except.error LoadError.fileNotFound :=
  ⟨rfl, (C7_load_csv_file_not_found [] "COVID19MEXICO.csv" rfl).1⟩

/-- Claim C8 (counterexample): the claim as stated is false.  The input
table `tableDupIcu` contains `UCI` and every whitelist source column,
yet the call with extras `["icu"]` returns 18 columns, not 17, because
the table also carries a column already labelled `icu` and pandas
selection returns both columns with that label. -/
theorem C8_counterexample_duplicate_icu_label :
    ("UCI" ∈ colNames tableDupIcu ∧ ∀ s ∈ whitelistSources, s ∈ colNames tableDupIcu) ∧
    ¬ ((translate_filter_columns tableDupIcu (some ["icu"])).toOption.map
        (fun p => (colNames p.1).length) = some 17) := by
  decide

/-- Claim C8 (amended): for every input table that contains `UCI` and
all whitelist source columns and whose renamed column names are
pairwise distinct, the call with `optional_includes = ["icu"]` succeeds
and returns a table with 17 columns whose last column is named
`icu`. -/
theorem C8_optional_icu_17_columns {α : Type} (df : Table α)
    (hnd : (colNames (rename column_mapping df)).Nodup)
    (hsrc : ∀ s ∈ whitelistSources ++ ["UCI"], s ∈ colNames df) :
    ∃ t, translate_filter_columns df (some ["icu"]) =
        Except.ok (t, filter_columns_base ++ ["icu"]) ∧
      colNames t = filter_columns_base ++ ["icu"] ∧
      (colNames t).length = 17 ∧ (colNames t).getLast? = some "icu" := by
  have hm : ∀ n ∈ filter_columns_base ++ ["icu"],
      ∃ s ∈ whitelistSources ++ ["UCI"], renameName column_mapping s = n := by decide
  have hsub : ∀ n ∈ filter_columns_base ++ ["icu"],
      n ∈ colNames (rename column_mapping df) := by
    intro n hn
    obtain ⟨s, hs, hsn⟩ := hm n hn
    exact hsn ▸ mem_colNames_rename (hsrc s hs)
  obtain ⟨t, ht, hc⟩ := translate_ok_of_nodup hnd hsub
  exact ⟨t, ht, hc, by rw [hc]; decide, by rw [hc]; decide⟩

/-- Claim C8 witness: the amended theorem at the concrete table
`tableAll16Uci`. -/
theorem C8_witness :
    ∃ t, translate_filter_columns tableAll16Uci (some ["icu"]) =
        Except.ok (t, filter_columns_base ++ ["icu"]) ∧
      colNames t = filter_columns_base ++ ["icu"] ∧
      (colNames t).length = 17 ∧ (colNames t).getLast? = some "icu" :=
  C8_optional_icu_17_columns tableAll16Uci (by decide) (by decide)

/-- Claim C9: under the heap model of the call, every list the caller
holds a valid address for — in particular the `optional_includes` list
— is unchanged after the call, whether it succeeds or fails; the
address of the returned retention list is a freshly allocated cell
distinct from every pre-existing address (the returned list is not an
alias of the caller's list); and the heap grows by exactly the one
fresh cell.  The input table is passed and transformed by value —
`rename` and selection build new tables — so it is unchanged by
construction. -/
theorem C9_no_argument_mutation {α : Type} (σ : Heap) (df : Table α) (opt : Option Nat)
    (a : Nat) (ha : a < σ.length) :
    hGet (translate_filter_columnsH σ df opt).1 a = hGet σ a ∧
    (translate_filter_columnsH σ df opt).2.1 ≠ a ∧
    (translate_filter_columnsH σ df opt).1.length = σ.length + 1 := by
  have hne : σ.length ≠ a := Nat.ne_of_gt ha
  refine ⟨?_, ?_, ?_⟩
  · cases opt with
    | none =>
      show hGet (σ ++ [filter_columns_base]) a = hGet σ a
      simp [hGet, List.getD_eq_getElem?_getD, List.getElem?_append_left ha]
    | some b =>
      simp only [translate_filter_columnsH]
      split
      · simp [hGet, List.getD_eq_getElem?_getD, List.getElem?_append_left ha]
      · simp [hGet, List.getD_eq_getElem?_getD, List.getElem?_set_ne hne,
          List.getElem?_append_left ha]
  · show σ.length ≠ a
    exact hne
  · cases opt with
    | none => simp [translate_filter_columnsH]
    | some b =>
      simp only [translate_filter_columnsH]
      split <;> simp

/-- Claim C9 witness: the theorem at a one-cell heap holding the
caller's list `["icu"]` at address 0: the cell still holds `["icu"]`
after the call, the returned address is not 0, and the heap has exactly
one new cell. -/
theorem C9_witness :
    hGet (translate_filter_columnsH [["icu"]] tableAll16 (some 0)).1 0 = ["icu"] ∧
    (translate_filter_columnsH [["icu"]] tableAll16 (some 0)).2.1 ≠ 0 ∧
    (translate_filter_columnsH [["icu"]] tableAll16 (some 0)).1.length = 2 := by
  have h := C9_no_argument_mutation [["icu"]] tableAll16 (some 0) 0 (by decide)
  exact ⟨h.1, h.2.1, h.2.2⟩

/-- Claim C10: passing an empty `optional_includes` list behaves
identically to omitting the argument — `if optional_includes:` treats
the empty list and `None` alike, so an empty extras list never changes
the retention list or the selected table. -/
theorem C10_empty_extras_like_omitted {α : Type} (df : Table α) :
    translate_filter_columns df (some []) = translate_filter_columns df none := rfl
